import Mathlib

/-
  Verification of the LinguaLens document-translation pipeline
  (src/app.py - Streamlit front-end, src/main.py - FastAPI service).

  Python strings are modelled as List Char (Python len = list length,
  code-point for code-point).  Python str.split(". "), str.split("\n"),
  str.strip() and the join operations are modelled by the
  executable functions below.  The opaque translation model
  (tokenizer/MarianMT/decode) is modelled as a function argument
  b : List Char -> List Char; the service failure mode
  (TranslationServiceError) is modelled with Except.
-/

/-- Convert a Lean string literal to the List Char model of a Python str. -/
def pys (s : String) : List Char :=
  s.toList

/-- Python str.strip() whitespace test (ASCII range, as in CPython). -/
def pyIsSpace (c : Char) : Bool :=
  c = ' ' || c = '\t' || c = '\n' || c = '\r' || c = '\x0b' || c = '\x0c'

/-- Python str.strip(): drop leading and trailing whitespace. -/
def pyStrip (s : List Char) : List Char :=
  ((s.dropWhile pyIsSpace).reverse.dropWhile pyIsSpace).reverse

/-- Python text.split(". "): split on each non-overlapping occurrence of
the two-character delimiter, scanning left to right; the empty string
yields one empty fragment, exactly as in CPython. -/
def splitDotSpace : List Char → List (List Char)
  | [] => [[]]
  | [c] => [[c]]
  | c1 :: c2 :: rest =>
    if c1 = '.' ∧ c2 = ' ' then
      [] :: splitDotSpace rest
    else
      match splitDotSpace (c2 :: rest) with
      | f :: fs => (c1 :: f) :: fs
      | [] => [[c1]]

/-- Python text.split("\n"). -/
def splitNl : List Char → List (List Char)
  | [] => [[]]
  | c :: rest =>
    if c = '\n' then
      [] :: splitNl rest
    else
      match splitNl rest with
      | f :: fs => (c :: f) :: fs
      | [] => [[c]]

/-- Python line.split(","), used to model one csv.reader row. -/
def splitComma : List Char → List (List Char)
  | [] => [[]]
  | c :: rest =>
    if c = ',' then
      [] :: splitComma rest
    else
      match splitComma rest with
      | f :: fs => (c :: f) :: fs
      | [] => [[c]]

/-- Whether the sentence delimiter ". " occurs somewhere in the string. -/
def hasDotSpace : List Char → Bool
  | [] => false
  | [_] => false
  | c1 :: c2 :: rest => (c1 = '.' && c2 = ' ') || hasDotSpace (c2 :: rest)

/-- Python " ".join(chunks). -/
def joinSpace (l : List (List Char)) : List Char :=
  List.intercalate [' '] l

/-- Python "\n".join(parts). -/
def joinNl (l : List (List Char)) : List Char :=
  List.intercalate ['\n'] l

/-- Python ", ".join(parts). -/
def joinCommaSpace (l : List (List Char)) : List Char :=
  List.intercalate [',', ' '] l

/-
  The two chunkers.

  src/app.py chunk_text (lines 75-88):
    sentences = text.split(". ")
    chunks, chunk = [], ""
    for sentence in sentences:
        if len(chunk) + len(sentence) + 2 < max_length:
            chunk += sentence + ". "
        else:
            chunks.append(chunk.strip())
            chunk = sentence + ". "
    if chunk:
        chunks.append(chunk.strip())
    return chunks

  src/main.py chunk_text (lines 66-77) is identical except that the
  overflow test reads  len(chunk) + len(sentence) < max_length.
-/

/-- Loop of src/app.py chunk_text: arguments are the remaining sentences,
the accumulated chunks, and the current chunk. -/
def chunkLoopApp (m : Nat) : List (List Char) → List (List Char) → List Char → List (List Char)
  | [], chunks, chunk =>
    if chunk = [] then chunks else chunks ++ [pyStrip chunk]
  | s :: rest, chunks, chunk =>
    if chunk.length + s.length + 2 < m then
      chunkLoopApp m rest chunks (chunk ++ s ++ ['.', ' '])
    else
      chunkLoopApp m rest (chunks ++ [pyStrip chunk]) (s ++ ['.', ' '])

/-- src/app.py chunk_text. -/
def chunk_text_app (text : List Char) (max_length : Nat := 512) : List (List Char) :=
  chunkLoopApp max_length (splitDotSpace text) [] []

/-- Loop of src/main.py chunk_text (overflow test without the + 2). -/
def chunkLoopMain (m : Nat) : List (List Char) → List (List Char) → List Char → List (List Char)
  | [], chunks, chunk =>
    if chunk = [] then chunks else chunks ++ [pyStrip chunk]
  | s :: rest, chunks, chunk =>
    if chunk.length + s.length < m then
      chunkLoopMain m rest chunks (chunk ++ s ++ ['.', ' '])
    else
      chunkLoopMain m rest (chunks ++ [pyStrip chunk]) (s ++ ['.', ' '])

/-- src/main.py chunk_text. -/
def chunk_text_main (text : List Char) (max_length : Nat := 512) : List (List Char) :=
  chunkLoopMain max_length (splitDotSpace text) [] []

/-
  Translation orchestration.

  src/app.py translate_text (lines 149-167) and src/main.py
  translate_text (lines 119-127) both do, with no input validation,
  no retry and no fallback:
    tokenizer, model = load_model_and_tokenizer(src, tgt)
    chunks = chunk_text(text)            -- default max_length 512
    for chunk in chunks: run the model on the chunk
    return " ".join(translated_chunks)
  The model invocation (tokenizer/generate/decode) is the opaque
  backend b.  An exception raised by the backend propagates out of
  translate_text (app.py logs it and re-raises).
-/

/-- src/app.py translate_text with a total backend b. -/
def translate_text_app (b : List Char → List Char) (text : List Char) : List Char :=
  joinSpace ((chunk_text_app text 512).map b)

/-- src/main.py translate_text with a total backend b. -/
def translate_text_main (b : List Char → List Char) (text : List Char) : List Char :=
  joinSpace ((chunk_text_main text 512).map b)

/-- Number of backend invocations made by src/app.py translate_text:
one per chunk (the loop body calls the model exactly once per chunk). -/
def translate_text_calls_app (text : List Char) : Nat :=
  (chunk_text_app text 512).length

/-- Number of backend invocations made by src/main.py translate_text. -/
def translate_text_calls_main (text : List Char) : Nat :=
  (chunk_text_main text 512).length

/-- The transient backend failure (TranslationServiceError of the spec). -/
inductive TranslationError
  | serviceError
deriving DecidableEq

/-- Run the per-chunk translation loop with a fallible backend, counting
backend invocations.  The first raised error aborts the loop and
propagates, exactly as an exception does in the Python for-loop. -/
def runChunksE (b : List Char → Except TranslationError (List Char)) :
    List (List Char) → Except TranslationError (List (List Char)) × Nat
  | [] => (Except.ok [], 0)
  | c :: rest =>
    match b c with
    | Except.error e => (Except.error e, 1)
    | Except.ok t =>
      match runChunksE b rest with
      | (Except.ok ts, n) => (Except.ok (t :: ts), n + 1)
      | (Except.error e, n) => (Except.error e, n + 1)

/-- src/app.py translate_text with a fallible backend: the translated
text, or the propagated error, together with the number of backend
invocations actually made. -/
def translate_textE_app (b : List Char → Except TranslationError (List Char))
    (text : List Char) : Except TranslationError (List Char) × Nat :=
  match runChunksE b (chunk_text_app text 512) with
  | (Except.ok ts, n) => (Except.ok (joinSpace ts), n)
  | (Except.error e, n) => (Except.error e, n)

/-- src/main.py translate_text with a fallible backend. -/
def translate_textE_main (b : List Char → Except TranslationError (List Char))
    (text : List Char) : Except TranslationError (List Char) × Nat :=
  match runChunksE b (chunk_text_main text 512) with
  | (Except.ok ts, n) => (Except.ok (joinSpace ts), n)
  | (Except.error e, n) => (Except.error e, n)

/-
  Tabular translation.

  A spreadsheet/csv cell (openpyxl values_only): a string, a number, or
  None.  Numbers stand for every non-str Python value a cell can hold;
  only the isinstance(cell, str) distinction matters to the code.
-/

/-- One table cell. -/
inductive Cell
  | str (s : List Char)
  | num (n : Int)
  | empty
deriving DecidableEq

/-- Cell body of src/app.py translate_excel_cells (lines 169-190) and
src/main.py translate_excel_cells (lines 130-144):
  if isinstance(cell, str) and cell.strip(): run the model on the cell
  else: keep the cell unchanged. -/
def translateCell (b : List Char → List Char) : Cell → Cell
  | Cell.str s => if pyStrip s = [] then Cell.str s else Cell.str (b s)
  | c => c

/-- translate_excel_cells of both source files: the nested row/cell loop. -/
def translate_excel_cells (b : List Char → List Char)
    (cells : List (List Cell)) : List (List Cell) :=
  cells.map (fun row => row.map (translateCell b))

/-- The cell values on which translate_excel_cells invokes the backend,
in loop order: read off the same branch test (isinstance str and
non-blank after strip) that guards the model invocation in the source. -/
def excel_backend_inputs (cells : List (List Cell)) : List (List Char) :=
  (cells.map (fun row => row.filterMap (fun c =>
    match c with
    | Cell.str s => if pyStrip s = [] then none else some s
    | _ => none))).flatten

/-- Stated from the claim's words, for comparison with the code: the
cell values that are non-empty strings (empty meaning the string []). -/
def claimed_backend_inputs (cells : List (List Cell)) : List (List Char) :=
  (cells.map (fun row => row.filterMap (fun c =>
    match c with
    | Cell.str s => if s = [] then none else some s
    | _ => none))).flatten

/-
  Files, extraction and serialization, following src/main.py.
-/

/-- An uploaded document, by detected format, carrying what the format
specific extractor reads from it: a .txt body, the per-page texts of a
.pdf, the paragraph texts of a .docx, the active-sheet rows of a .xlsx
(values_only), or the csv.reader rows of a .csv. -/
inductive ModelFile
  | txtF (s : List Char)
  | pdfF (pages : List (List Char))
  | docxF (paras : List (List Char))
  | xlsxF (rows : List (List Cell))
  | csvF (rows : List (List (List Char)))
deriving DecidableEq

/-- detect_file_type result for a correctly-named file of each kind
(mimetypes.guess_type maps .pdf to application/pdf; the other four fall
through to the endswith tests of src/main.py lines 49-61). -/
def fileExt : ModelFile → String
  | ModelFile.txtF _ => ".txt"
  | ModelFile.pdfF _ => ".pdf"
  | ModelFile.docxF _ => ".docx"
  | ModelFile.xlsxF _ => ".xlsx"
  | ModelFile.csvF _ => ".csv"

/-- extract_text of src/main.py (lines 82-97): .pdf concatenates page
texts with no separator (the "".join of the source), .docx joins
paragraphs with newlines,
.txt reads the body; table formats raise ValueError. -/
def extract_text : ModelFile → Except String (List Char)
  | ModelFile.txtF s => Except.ok s
  | ModelFile.pdfF pages => Except.ok pages.flatten
  | ModelFile.docxF paras => Except.ok (joinNl paras)
  | _ => Except.error ("Unsupported file for text extraction")

/-- Python str(cell) as used by the csv flattening paths. -/
def cellToText : Cell → List Char
  | Cell.str s => s
  | Cell.num n => pys (toString n)
  | Cell.empty => pys ("None")

/-- A written output file, by format, carrying what the writer puts in
it: txt body, docx single paragraph, pdf drawn lines (each hard-cut to
100 characters by line[:100]), csv records, or xlsx sheet rows. -/
inductive Saved
  | txtS (s : List Char)
  | docxS (s : List Char)
  | pdfS (lines : List (List Char))
  | csvS (rows : List (List (List Char)))
  | xlsxS (rows : List (List Cell))
deriving DecidableEq

/-- Output format tag of a written file. -/
def savedFormat : Saved → String
  | Saved.txtS _ => "txt"
  | Saved.docxS _ => "docx"
  | Saved.pdfS _ => "pdf"
  | Saved.csvS _ => "csv"
  | Saved.xlsxS _ => "xlsx"

/-- csv.reader applied to a text: physical lines (a trailing newline
produces no extra record, a blank line an empty record), each split on
commas.  Field quoting is not modelled; none of the data in the claims
is quoted. -/
def csvParse (s : List Char) : List (List (List Char)) :=
  let ls := splitNl s
  let ls := if ls.getLast? = some [] then ls.dropLast else ls
  ls.map (fun l => if l = [] then [] else splitComma l)

/-- save_translated_file of src/main.py (lines 149-177): serialize a
flat text as txt, docx, pdf or csv; any other tag raises ValueError
("Unsupported output format").  In particular there is no xlsx branch. -/
def save_translated_file (translated_text : List Char) (output_format : String) :
    Except String Saved :=
  if output_format = "txt" then
    Except.ok (Saved.txtS translated_text)
  else if output_format = "docx" then
    Except.ok (Saved.docxS translated_text)
  else if output_format = "pdf" then
    Except.ok (Saved.pdfS ((splitNl translated_text).map (fun l => l.take 100)))
  else if output_format = "csv" then
    Except.ok (Saved.csvS (csvParse translated_text))
  else
    Except.error ("Unsupported output format")

/-- save_translated_excel of src/main.py (lines 180-188): always writes
a workbook; never fails on any row shape. -/
def save_translated_excel (rows : List (List Cell)) : Saved :=
  Saved.xlsxS rows

/-- The model name requested from the hub by load_model_and_tokenizer. -/
def model_name (src_lang tgt_lang : String) : String :=
  "Helsinki-NLP/opus-mt-" ++ src_lang ++ "-" ++ tgt_lang

/-- The format dispatch of the upload_file route of src/main.py
(lines 204-266), after the temp file is written and detect_file_type has
run; b is the loaded translation model, stem the uploaded filename
without its extension.  Returns the output filename and the written
file, or the raised error.
  .xlsx input: translate cells, always save as xlsx (the requested
   output_format is ignored and the filename hard-codes .xlsx);
  .csv input: translate every cell, then save as xlsx, as csv, or
   flatten rows with ", " / "\n" and defer to save_translated_file;
  flat input (.txt/.pdf/.docx): extract_text, translate_text, then
   save_translated_file. -/
def upload_file (b : List Char → List Char) (stem : List Char)
    (file : ModelFile) (output_format : String) :
    Except String (List Char × Saved) :=
  match file with
  | ModelFile.xlsxF rows =>
    Except.ok (stem ++ pys ("_translated.xlsx"),
      save_translated_excel (translate_excel_cells b rows))
  | ModelFile.csvF rows =>
    let translated := translate_excel_cells b (rows.map (fun r => r.map Cell.str))
    if output_format = "xlsx" then
      Except.ok (stem ++ pys ("_translated.xlsx"), save_translated_excel translated)
    else if output_format = "csv" then
      Except.ok (stem ++ pys ("_translated.csv"),
        Saved.csvS (translated.map (fun r => r.map cellToText)))
    else
      match save_translated_file
          (joinNl (translated.map (fun r => joinCommaSpace (r.map cellToText))))
          output_format with
      | Except.ok saved =>
        Except.ok (stem ++ pys ("_translated.") ++ pys output_format, saved)
      | Except.error e => Except.error e
  | f =>
    match extract_text f with
    | Except.ok text =>
      match save_translated_file (translate_text_main b text) output_format with
      | Except.ok saved =>
        Except.ok (stem ++ pys ("_translated.") ++ pys output_format, saved)
      | Except.error e => Except.error e
    | Except.error e => Except.error e

/-- os.path.splitext(fn)[0]: the filename up to its last dot (names with
no dot are returned whole; the dot-file special case is not needed for
the filenames considered here). -/
def stemOf (fn : List Char) : List Char :=
  if fn.contains '.' then
    ((fn.reverse.dropWhile (fun c => ¬ c = '.')).drop 1).reverse
  else
    fn

/-- The upload_file route of src/main.py from the top: its only
validation before translation is that the uploaded filename is present
and non-empty (if not file.filename); in particular src_lang and
tgt_lang are never compared or validated, they are only interpolated
into the model name handed to the backend loader. -/
def upload_file_endpoint (b : String → List Char → List Char)
    (filename : Option (List Char)) (file : ModelFile)
    (src_lang tgt_lang output_format : String) :
    Except String (List Char × Saved) :=
  match filename with
  | none => Except.error ("Uploaded file must have a valid filename.")
  | some fn =>
    if fn = [] then
      Except.error ("Uploaded file must have a valid filename.")
    else
      upload_file (b (model_name src_lang tgt_lang)) (stemOf fn) file output_format

/-- Number of backend invocations the upload pipeline performs for a
given file: one per chunk for flat formats, one per non-blank string
cell for table formats (translation runs before any save step). -/
def upload_backend_calls : ModelFile → Nat
  | ModelFile.txtF s => (chunk_text_main s 512).length
  | ModelFile.pdfF pages => (chunk_text_main pages.flatten 512).length
  | ModelFile.docxF paras => (chunk_text_main (joinNl paras) 512).length
  | ModelFile.xlsxF rows => (excel_backend_inputs rows).length
  | ModelFile.csvF rows =>
    (excel_backend_inputs (rows.map (fun r => r.map Cell.str))).length

/-- The Translate-button handler of src/app.py main (lines 317-326):
validation order is missing-file first, then equal language names; only
otherwise does process_file (and with it any backend work) run. -/
inductive UiOutcome
  | errorNoUpload
  | errorSameLanguage
  | runTranslation
deriving DecidableEq

/-- Outcome of a click on Translate in the Streamlit UI. -/
def app_translate_click (hasFile : Bool) (src_lang_name tgt_lang_name : String) :
    UiOutcome :=
  if !hasFile then UiOutcome.errorNoUpload
  else if src_lang_name = tgt_lang_name then UiOutcome.errorSameLanguage
  else UiOutcome.runTranslation

/-
  Helper lemmas.
-/

lemma pyStrip_length_le (s : List Char) : (pyStrip s).length ≤ s.length := by
  unfold pyStrip
  calc (((s.dropWhile pyIsSpace).reverse.dropWhile pyIsSpace).reverse).length
      = ((s.dropWhile pyIsSpace).reverse.dropWhile pyIsSpace).length := by
        rw [List.length_reverse]
    _ ≤ (s.dropWhile pyIsSpace).reverse.length :=
        (List.dropWhile_sublist pyIsSpace).length_le
    _ = (s.dropWhile pyIsSpace).length := by rw [List.length_reverse]
    _ ≤ s.length := (List.dropWhile_sublist pyIsSpace).length_le

lemma dropWhile_ws_append_dot_space (s : List Char) :
    (s ++ ['.', ' ']).dropWhile pyIsSpace = s.dropWhile pyIsSpace ++ ['.', ' '] := by
  rw [List.dropWhile_append]
  by_cases h : (s.dropWhile pyIsSpace).isEmpty
  · rw [if_pos h]
    rw [List.isEmpty_iff] at h
    rw [h]
    decide
  · rw [if_neg h]

lemma pyStrip_append_dot_space (s : List Char) :
    pyStrip (s ++ ['.', ' ']) = s.dropWhile pyIsSpace ++ ['.'] := by
  unfold pyStrip
  rw [dropWhile_ws_append_dot_space]
  rw [List.reverse_append]
  have h1 : (['.', ' '] : List Char).reverse = [' ', '.'] := by decide
  rw [h1]
  rw [List.cons_append, List.cons_append, List.nil_append]
  rw [List.dropWhile_cons_of_pos (by decide), List.dropWhile_cons_of_neg (by decide)]
  rw [List.reverse_cons, List.reverse_reverse]

lemma hasDotSpace_tail {c : Char} {s : List Char} (h : hasDotSpace (c :: s) = false) :
    hasDotSpace s = false := by
  cases s with
  | nil => rfl
  | cons c2 rest =>
    simp only [hasDotSpace, Bool.or_eq_false_iff] at h
    exact h.2

lemma hasDotSpace_dropWhile {p : Char → Bool} {s : List Char}
    (h : hasDotSpace s = false) : hasDotSpace (s.dropWhile p) = false := by
  induction s with
  | nil => simpa using h
  | cons c rest ih =>
    rw [List.dropWhile_cons]
    split
    · exact ih (hasDotSpace_tail h)
    · exact h

lemma hasDotSpace_append_dot : ∀ {s : List Char}, hasDotSpace s = false →
    hasDotSpace (s ++ ['.']) = false
  | [], _ => by decide
  | [c], _ => by
    simp [hasDotSpace]
  | c1 :: c2 :: rest, h => by
    simp only [hasDotSpace, Bool.or_eq_false_iff] at h
    have ih := hasDotSpace_append_dot (s := c2 :: rest) h.2
    simp only [List.cons_append] at ih ⊢
    simp only [hasDotSpace, Bool.or_eq_false_iff]
    exact ⟨h.1, ih⟩

lemma splitDotSpace_ne_nil : ∀ s : List Char, splitDotSpace s ≠ []
  | [] => by simp [splitDotSpace]
  | [c] => by simp [splitDotSpace]
  | c1 :: c2 :: rest => by
    simp only [splitDotSpace]
    split
    · simp
    · split <;> simp

lemma splitDotSpace_head_shape (c : Char) (rest : List Char) (f : List Char)
    (fs : List (List Char)) (h : splitDotSpace (c :: rest) = f :: fs) :
    f = [] ∨ ∃ g, f = c :: g := by
  cases rest with
  | nil =>
    simp only [splitDotSpace] at h
    rcases h with ⟨rfl, rfl⟩
    exact Or.inr ⟨[], rfl⟩
  | cons c2 rest' =>
    simp only [splitDotSpace] at h
    split at h
    · rcases h with ⟨rfl, _⟩
      exact Or.inl rfl
    · rename_i hne
      rcases hm : splitDotSpace (c2 :: rest') with _ | ⟨g, gs⟩
      · exact absurd hm (splitDotSpace_ne_nil _)
      · rw [hm] at h
        rcases h with ⟨rfl, rfl⟩
        exact Or.inr ⟨g, rfl⟩

lemma splitDotSpace_no_delim : ∀ (s : List Char), ∀ f ∈ splitDotSpace s,
    hasDotSpace f = false
  | [] => by
    intro f hf
    simp [splitDotSpace] at hf
    subst hf
    rfl
  | [c] => by
    intro f hf
    simp [splitDotSpace] at hf
    subst hf
    rfl
  | c1 :: c2 :: rest => by
    intro f hf
    simp only [splitDotSpace] at hf
    split at hf
    · rcases List.mem_cons.mp hf with rfl | hmem
      · rfl
      · exact splitDotSpace_no_delim rest f hmem
    · rename_i hne
      rcases hm : splitDotSpace (c2 :: rest) with _ | ⟨g, gs⟩
      · exact absurd hm (splitDotSpace_ne_nil _)
      · rw [hm] at hf
        rcases List.mem_cons.mp hf with rfl | hmem
        · have hg : hasDotSpace g = false :=
            splitDotSpace_no_delim (c2 :: rest) g (by rw [hm]; exact List.mem_cons_self _ _)
          have hb : ((c1 = '.' : Bool) && (c2 = ' ' : Bool)) = false := by
            rw [← Bool.decide_and]
            exact decide_eq_false hne
          rcases splitDotSpace_head_shape c2 rest g gs hm with rfl | ⟨g', rfl⟩
          · simp [hasDotSpace]
          · simp only [hasDotSpace, Bool.or_eq_false_iff]
            exact ⟨hb, hg⟩
        · exact splitDotSpace_no_delim (c2 :: rest) f (by rw [hm]; exact List.mem_cons_of_mem _ hmem)

lemma splitDotSpace_all_ws : ∀ s : List Char, (∀ c ∈ s, pyIsSpace c = true) →
    splitDotSpace s = [s]
  | [], _ => rfl
  | [c], _ => rfl
  | c1 :: c2 :: rest, h => by
    have h1 : pyIsSpace c1 = true := h c1 (by simp)
    have hne : ¬(c1 = '.' ∧ c2 = ' ') := by
      rintro ⟨rfl, -⟩
      simp [pyIsSpace] at h1
    simp only [splitDotSpace]
    rw [if_neg hne]
    rw [splitDotSpace_all_ws (c2 :: rest) (fun c hc => h c (by simp [hc]))]

lemma chunkLoopApp_ne_nil (m : Nat) : ∀ (sents chunks : List (List Char)) (chunk : List Char),
    sents ≠ [] ∨ chunk ≠ [] → chunkLoopApp m sents chunks chunk ≠ []
  | [], chunks, chunk, h => by
    have hc : chunk ≠ [] := h.resolve_left (fun h' => h' rfl)
    simp only [chunkLoopApp, if_neg hc]
    simp
  | s :: rest, chunks, chunk, _ => by
    simp only [chunkLoopApp]
    split
    · exact chunkLoopApp_ne_nil m rest chunks _ (Or.inr (by simp))
    · exact chunkLoopApp_ne_nil m rest _ _ (Or.inr (by simp))

lemma chunkLoopMain_ne_nil (m : Nat) : ∀ (sents chunks : List (List Char)) (chunk : List Char),
    sents ≠ [] ∨ chunk ≠ [] → chunkLoopMain m sents chunks chunk ≠ []
  | [], chunks, chunk, h => by
    have hc : chunk ≠ [] := h.resolve_left (fun h' => h' rfl)
    simp only [chunkLoopMain, if_neg hc]
    simp
  | s :: rest, chunks, chunk, _ => by
    simp only [chunkLoopMain]
    split
    · exact chunkLoopMain_ne_nil m rest chunks _ (Or.inr (by simp))
    · exact chunkLoopMain_ne_nil m rest _ _ (Or.inr (by simp))

lemma chunk_text_app_ne_nil (text : List Char) (m : Nat) : chunk_text_app text m ≠ [] :=
  chunkLoopApp_ne_nil m _ [] [] (Or.inl (splitDotSpace_ne_nil text))

lemma chunk_text_main_ne_nil (text : List Char) (m : Nat) : chunk_text_main text m ≠ [] :=
  chunkLoopMain_ne_nil m _ [] [] (Or.inl (splitDotSpace_ne_nil text))

lemma emit_good_app (m : Nat) (chunk : List Char)
    (hinv : chunk = [] ∨ chunk.length < m ∨
      ∃ x, hasDotSpace x = false ∧ chunk = x ++ ['.', ' ']) :
    (pyStrip chunk).length < m ∨ hasDotSpace (pyStrip chunk) = false := by
  rcases hinv with rfl | hlt | ⟨x, hx, rfl⟩
  · right; rfl
  · left; exact lt_of_le_of_lt (pyStrip_length_le chunk) hlt
  · right
    rw [pyStrip_append_dot_space]
    exact hasDotSpace_append_dot (hasDotSpace_dropWhile hx)

lemma chunkLoopApp_good (m : Nat) : ∀ (sents chunks : List (List Char)) (chunk : List Char),
    (∀ c ∈ chunks, c.length < m ∨ hasDotSpace c = false) →
    (∀ s ∈ sents, hasDotSpace s = false) →
    (chunk = [] ∨ chunk.length < m ∨
      ∃ x, hasDotSpace x = false ∧ chunk = x ++ ['.', ' ']) →
    ∀ c ∈ chunkLoopApp m sents chunks chunk, c.length < m ∨ hasDotSpace c = false
  | [], chunks, chunk, hch, _, hinv => by
    simp only [chunkLoopApp]
    split
    · exact hch
    · intro c hc
      rcases List.mem_append.mp hc with h | h
      · exact hch c h
      · rw [List.mem_singleton.mp h]
        exact emit_good_app m chunk hinv
  | s :: rest, chunks, chunk, hch, hs, hinv => by
    simp only [chunkLoopApp]
    split
    · rename_i hcond
      refine chunkLoopApp_good m rest chunks _ hch (fun x hx => hs x (by simp [hx])) ?_
      right; left
      simp only [List.length_append, List.length_cons, List.length_nil]
      omega
    · refine chunkLoopApp_good m rest _ _ ?_ (fun x hx => hs x (by simp [hx])) ?_
      · intro c hc
        rcases List.mem_append.mp hc with h | h
        · exact hch c h
        · rw [List.mem_singleton.mp h]
          exact emit_good_app m chunk hinv
      · exact Or.inr (Or.inr ⟨s, hs s (by simp), rfl⟩)

lemma emit_good_main (m : Nat) (chunk : List Char)
    (hinv : chunk = [] ∨
      ∃ x, chunk = x ++ ['.', ' '] ∧ (x.length < m ∨ hasDotSpace x = false)) :
    (pyStrip chunk).length ≤ m ∨ hasDotSpace (pyStrip chunk) = false := by
  rcases hinv with rfl | ⟨x, rfl, hx | hx⟩
  · right; rfl
  · left
    rw [pyStrip_append_dot_space]
    have hd : (x.dropWhile pyIsSpace).length ≤ x.length :=
      (List.dropWhile_sublist pyIsSpace).length_le
    simp only [List.length_append, List.length_cons, List.length_nil]
    omega
  · right
    rw [pyStrip_append_dot_space]
    exact hasDotSpace_append_dot (hasDotSpace_dropWhile hx)

lemma chunkLoopMain_good (m : Nat) : ∀ (sents chunks : List (List Char)) (chunk : List Char),
    (∀ c ∈ chunks, c.length ≤ m ∨ hasDotSpace c = false) →
    (∀ s ∈ sents, hasDotSpace s = false) →
    (chunk = [] ∨
      ∃ x, chunk = x ++ ['.', ' '] ∧ (x.length < m ∨ hasDotSpace x = false)) →
    ∀ c ∈ chunkLoopMain m sents chunks chunk, c.length ≤ m ∨ hasDotSpace c = false
  | [], chunks, chunk, hch, _, hinv => by
    simp only [chunkLoopMain]
    split
    · exact hch
    · intro c hc
      rcases List.mem_append.mp hc with h | h
      · exact hch c h
      · rw [List.mem_singleton.mp h]
        exact emit_good_main m chunk hinv
  | s :: rest, chunks, chunk, hch, hs, hinv => by
    simp only [chunkLoopMain]
    split
    · rename_i hcond
      refine chunkLoopMain_good m rest chunks _ hch (fun x hx => hs x (by simp [hx])) ?_
      right
      refine ⟨chunk ++ s, by rw [List.append_assoc], Or.inl ?_⟩
      simp only [List.length_append]
      omega
    · refine chunkLoopMain_good m rest _ _ ?_ (fun x hx => hs x (by simp [hx])) ?_
      · intro c hc
        rcases List.mem_append.mp hc with h | h
        · exact hch c h
        · rw [List.mem_singleton.mp h]
          exact emit_good_main m chunk hinv
      · exact Or.inr ⟨s, rfl, Or.inr (hs s (by simp))⟩

lemma chunk_text_app_good (text : List Char) (m : Nat) :
    ∀ c ∈ chunk_text_app text m, c.length < m ∨ hasDotSpace c = false :=
  chunkLoopApp_good m (splitDotSpace text) [] [] (by simp)
    (splitDotSpace_no_delim text) (Or.inl rfl)

lemma chunk_text_main_good (text : List Char) (m : Nat) :
    ∀ c ∈ chunk_text_main text m, c.length ≤ m ∨ hasDotSpace c = false :=
  chunkLoopMain_good m (splitDotSpace text) [] [] (by simp)
    (splitDotSpace_no_delim text) (Or.inl rfl)

lemma chunkLoopApp_eq_main (m : Nat) : ∀ (sents chunks : List (List Char)) (chunk : List Char),
    chunkLoopApp m sents chunks chunk = chunkLoopMain (m - 2) sents chunks chunk
  | [], _, _ => rfl
  | s :: rest, chunks, chunk => by
    simp only [chunkLoopApp, chunkLoopMain]
    have hiff : chunk.length + s.length + 2 < m ↔ chunk.length + s.length < m - 2 := by
      omega
    by_cases h : chunk.length + s.length + 2 < m
    · rw [if_pos h, if_pos (hiff.mp h)]
      exact chunkLoopApp_eq_main m rest chunks _
    · rw [if_neg h, if_neg (fun hh => h (hiff.mpr hh))]
      exact chunkLoopApp_eq_main m rest _ _

lemma chunk_text_app_eq_main (text : List Char) (m : Nat) :
    chunk_text_app text m = chunk_text_main text (m - 2) :=
  chunkLoopApp_eq_main m (splitDotSpace text) [] []

lemma intercalate_single (sep x : List Char) : List.intercalate sep [x] = x := by
  simp [List.intercalate]

lemma chunk_text_ws (text : List Char) (hws : ∀ c ∈ text, pyIsSpace c = true)
    (hlen : text.length ≤ 509) :
    chunk_text_app text 512 = [['.']] ∧ chunk_text_main text 512 = [['.']] := by
  have hsplit := splitDotSpace_all_ws text hws
  have hdw : text.dropWhile pyIsSpace = [] := List.dropWhile_eq_nil_iff.mpr hws
  constructor
  · rw [chunk_text_app, hsplit]
    simp only [chunkLoopApp]
    rw [if_pos (by simp only [List.length_nil]; omega)]
    simp only [chunkLoopApp, List.nil_append]
    rw [if_neg (by simp)]
    rw [pyStrip_append_dot_space, hdw]
    rfl
  · rw [chunk_text_main, hsplit]
    simp only [chunkLoopMain]
    rw [if_pos (by simp only [List.length_nil]; omega)]
    simp only [chunkLoopMain, List.nil_append]
    rw [if_neg (by simp)]
    rw [pyStrip_append_dot_space, hdw]
    rfl

lemma flatten_all_nil : ∀ l : List (List Char), (∀ p ∈ l, p = []) → l.flatten = []
  | [], _ => rfl
  | p :: rest, h => by
    rw [List.flatten_cons, h p (by simp), flatten_all_nil rest (fun q hq => h q (by simp [hq]))]
    rfl

lemma map_filterMap_flatten {α β : Type} (f : α → Option β) :
    ∀ l : List (List α), (l.map (fun r => r.filterMap f)).flatten = l.flatten.filterMap f
  | [] => rfl
  | r :: rest => by
    simp only [List.map_cons, List.flatten_cons, List.filterMap_append]
    rw [map_filterMap_flatten f rest]

lemma runChunksE_fail (b : List Char → Except TranslationError (List Char))
    (e : TranslationError) (hb : ∀ s, b s = Except.error e)
    (c : List Char) (cs : List (List Char)) :
    runChunksE b (c :: cs) = (Except.error e, 1) := by
  simp only [runChunksE, hb c]

lemma translate_textE_app_fail (b : List Char → Except TranslationError (List Char))
    (e : TranslationError) (hb : ∀ s, b s = Except.error e) (text : List Char) :
    translate_textE_app b text = (Except.error e, 1) := by
  obtain ⟨c, cs, hsplit⟩ := List.exists_cons_of_ne_nil (chunk_text_app_ne_nil text 512)
  unfold translate_textE_app
  rw [hsplit, runChunksE_fail b e hb]

lemma translate_textE_main_fail (b : List Char → Except TranslationError (List Char))
    (e : TranslationError) (hb : ∀ s, b s = Except.error e) (text : List Char) :
    translate_textE_main b text = (Except.error e, 1) := by
  obtain ⟨c, cs, hsplit⟩ := List.exists_cons_of_ne_nil (chunk_text_main_ne_nil text 512)
  unfold translate_textE_main
  rw [hsplit, runChunksE_fail b e hb]

/-- Whether a ModelFile goes down the flat-text path of upload_file
(extract_text, translate_text, save_translated_file). -/
def isFlatFile : ModelFile → Bool
  | ModelFile.txtF _ => true
  | ModelFile.pdfF _ => true
  | ModelFile.docxF _ => true
  | _ => false

/-
  Claim theorems.
-/

/-- C1 counterexample: against a backend that always raises
TranslationServiceError, translate_text of both source files propagates
the error after exactly one backend attempt; the claimed outcome (the
original text returned successfully, three attempts for the single
chunk) is a different value. -/
theorem translate_text_failing_backend_errors_concrete :
    translate_textE_app (fun _ => Except.error TranslationError.serviceError)
      (pys ("Hello")) = (Except.error TranslationError.serviceError, 1) ∧
    translate_textE_main (fun _ => Except.error TranslationError.serviceError)
      (pys ("Hello")) = (Except.error TranslationError.serviceError, 1) ∧
    ((Except.error TranslationError.serviceError, 1) :
        Except TranslationError (List Char) × Nat) ≠
      (Except.ok (pys ("Hello")), 3) :=
  ⟨rfl, rfl, by simp⟩

/-- C1 (amended): translate_text has no retry and no fallback: when
every backend call raises TranslationServiceError, the first chunk's
single failed attempt aborts translate_text in both source files, which
re-raise the error - exactly one attempt in total is made and the
original text is not returned. -/
theorem translate_text_no_retry_error_propagates
    (b : List Char → Except TranslationError (List Char)) (e : TranslationError)
    (hb : ∀ s, b s = Except.error e) (text : List Char) :
    translate_textE_app b text = (Except.error e, 1) ∧
    translate_textE_main b text = (Except.error e, 1) :=
  ⟨translate_textE_app_fail b e hb text, translate_textE_main_fail b e hb text⟩

/-- C1 witness. -/
theorem translate_text_no_retry_error_propagates_witness :
    translate_textE_app (fun _ => Except.error TranslationError.serviceError)
      (pys ("Hi")) = (Except.error TranslationError.serviceError, 1) :=
  (translate_text_no_retry_error_propagates
    (fun _ => Except.error TranslationError.serviceError)
    TranslationError.serviceError (fun _ => rfl) (pys ("Hi"))).1

/-- C2 counterexample: the src/main.py chunker emits, on input
"ab. cd. e" with maximum 7, the chunk "ab. cd.": its length equals the
maximum (not strictly less) and it contains the delimiter ". ", so it is
not a delimiter-free fragment either. -/
theorem chunk_text_main_length_eq_max_concrete :
    chunk_text_main (pys ("ab. cd. e")) 7 = [pys ("ab. cd."), pys ("e.")] ∧
    (pys ("ab. cd.")).length = 7 ∧
    hasDotSpace (pys ("ab. cd.")) = true :=
  ⟨by decide, by decide, by decide⟩

/-- C2 (amended): every chunk of src/app.py's chunker has length
strictly below the maximum or is delimiter-free (contains no ". ");
for src/main.py's chunker the bound is only length at most the maximum
(length exactly max_length is reachable, see the counterexample),
again with delimiter-free oversized chunks. -/
theorem chunk_text_length_bounds (text : List Char) (m : Nat) (c : List Char) :
    (c ∈ chunk_text_app text m → c.length < m ∨ hasDotSpace c = false) ∧
    (c ∈ chunk_text_main text m → c.length ≤ m ∨ hasDotSpace c = false) :=
  ⟨fun h => chunk_text_app_good text m c h, fun h => chunk_text_main_good text m c h⟩

/-- C2 witness. -/
theorem chunk_text_length_bounds_witness :
    (pys ("ab.")).length < 7 ∨ hasDotSpace (pys ("ab.")) = false :=
  (chunk_text_length_bounds (pys ("ab. cd. e")) 7 (pys ("ab."))).1 (by decide)

/-- C3 counterexample: a whitespace-only cell " " is a non-empty string,
yet translate_excel_cells never hands it to the backend (the guard is
cell.strip(), not non-emptiness): the backend input list is empty while
the claims reading would pass the cell, and the cell passes through
unchanged. -/
theorem excel_backend_inputs_whitespace_cell_concrete :
    excel_backend_inputs [[Cell.str (pys (" "))]] = [] ∧
    claimed_backend_inputs [[Cell.str (pys (" "))]] = [pys (" ")] ∧
    translate_excel_cells (fun _ => pys ("X")) [[Cell.str (pys (" "))]] =
      [[Cell.str (pys (" "))]] ∧
    pys (" ") ≠ [] :=
  ⟨by decide, by decide, by decide, by decide⟩

/-- C3 (amended): translate_excel_cells preserves the row count and the
(possibly ragged) per-row lengths; every cell that is not a string with
non-whitespace content (numbers, None, the empty string, and also
whitespace-only strings) is kept unchanged at its position and never
passed to the backend; every string cell with non-blank strip is
replaced in place by the backend's output on it; and the values passed
to the backend are exactly the string cells whose strip is non-empty,
in row-major order. -/
theorem translate_excel_cells_policy (b : List Char → List Char)
    (cells : List (List Cell)) :
    (translate_excel_cells b cells).length = cells.length ∧
    (translate_excel_cells b cells).map List.length = cells.map List.length ∧
    (∀ (i j : Nat) (row : List Cell) (c : Cell), cells[i]? = some row →
      row[j]? = some c → (∀ s, c = Cell.str s → pyStrip s = []) →
      ∃ row', (translate_excel_cells b cells)[i]? = some row' ∧
        row'[j]? = some c) ∧
    (∀ (i j : Nat) (row : List Cell) (s : List Char), cells[i]? = some row →
      row[j]? = some (Cell.str s) → ¬ pyStrip s = [] →
      ∃ row', (translate_excel_cells b cells)[i]? = some row' ∧
        row'[j]? = some (Cell.str (b s))) ∧
    excel_backend_inputs cells = cells.flatten.filterMap (fun c =>
      match c with
      | Cell.str s => if pyStrip s = [] then none else some s
      | _ => none) := by
  refine ⟨?_, ?_, ?_, ?_, ?_⟩
  · simp [translate_excel_cells]
  · simp [translate_excel_cells, List.map_map, Function.comp]
  · intro i j row c h1 h2 hns
    refine ⟨row.map (translateCell b), ?_, ?_⟩
    · simp [translate_excel_cells, h1]
    · rw [List.getElem?_map, h2]
      have : translateCell b c = c := by
        cases c with
        | str s => simp [translateCell, hns s rfl]
        | num n => rfl
        | empty => rfl
      rw [Option.map_some']
      rw [this]
  · intro i j row s h1 h2 hns
    refine ⟨row.map (translateCell b), ?_, ?_⟩
    · simp [translate_excel_cells, h1]
    · rw [List.getElem?_map, h2, Option.map_some']
      simp [translateCell, hns]
  · exact map_filterMap_flatten _ cells

/-- C3 witness, on the spec's three-row table with an empty cell at row
index 1, column 0: the empty cell survives untouched at its position. -/
theorem translate_excel_cells_policy_witness :
    ∃ row', (translate_excel_cells (fun s => s ++ pys ("!"))
        [[Cell.str (pys ("a")), Cell.str (pys ("b"))],
         [Cell.str (pys ("")), Cell.str (pys ("c"))],
         [Cell.num 5, Cell.str (pys ("d"))]])[1]? = some row' ∧
      row'[0]? = some (Cell.str (pys (""))) :=
  (translate_excel_cells_policy (fun s => s ++ pys ("!"))
      [[Cell.str (pys ("a")), Cell.str (pys ("b"))],
       [Cell.str (pys ("")), Cell.str (pys ("c"))],
       [Cell.num 5, Cell.str (pys ("d"))]]).2.2.1
    1 0 [Cell.str (pys ("")), Cell.str (pys ("c"))] (Cell.str (pys ("")))
    rfl rfl (by intro s hs; cases hs; rfl)

/-- C4 counterexample: requesting output format xlsx for a flat (.txt)
input fails - save_translated_file raises "Unsupported output format"
for the in-set tag xlsx - and an .xlsx input produces an xlsx workbook
regardless of the requested format txt, so not every in-set
input/output combination is legal or honoured. -/
theorem save_xlsx_unsupported_concrete :
    upload_file (fun s => s) (pys ("doc")) (ModelFile.txtF (pys ("Hi"))) "xlsx" =
      Except.error ("Unsupported output format") ∧
    save_translated_file (pys ("Hi")) "xlsx" =
      Except.error ("Unsupported output format") ∧
    upload_file (fun s => s) (pys ("doc")) (ModelFile.xlsxF [[Cell.num 3]]) "txt" =
      Except.ok (pys ("doc_translated.xlsx"), Saved.xlsxS [[Cell.num 3]]) ∧
    savedFormat (Saved.xlsxS [[Cell.num 3]]) ≠ "txt" :=
  ⟨rfl, rfl, rfl, by decide⟩

/-- C4 (amended): the legal combinations are: flat inputs (txt, pdf,
docx) with any output in {txt, docx, pdf, csv}, honoured; csv input with
any output in {txt, docx, pdf, csv, xlsx}, honoured; xlsx input always
yields xlsx, ignoring the requested format; and save_translated_file
fails with "Unsupported output format" exactly outside
{txt, docx, pdf, csv} - in particular for the in-set tag xlsx. -/
theorem upload_format_matrix (b : List Char → List Char) (stem : List Char) :
    (∀ (file : ModelFile) (fmt : String), isFlatFile file = true →
      fmt ∈ ["txt", "docx", "pdf", "csv"] →
      ∃ saved, upload_file b stem file fmt =
        Except.ok (stem ++ pys ("_translated.") ++ pys fmt, saved) ∧
        savedFormat saved = fmt) ∧
    (∀ (rows : List (List (List Char))) (fmt : String),
      fmt ∈ ["txt", "docx", "pdf", "csv", "xlsx"] →
      ∃ name saved, upload_file b stem (ModelFile.csvF rows) fmt =
        Except.ok (name, saved) ∧ savedFormat saved = fmt) ∧
    (∀ (rows : List (List Cell)) (fmt : String),
      upload_file b stem (ModelFile.xlsxF rows) fmt =
        Except.ok (stem ++ pys ("_translated.xlsx"),
          Saved.xlsxS (translate_excel_cells b rows))) ∧
    (∀ (s : List Char) (fmt : String), fmt ∉ ["txt", "docx", "pdf", "csv"] →
      save_translated_file s fmt = Except.error ("Unsupported output format")) := by
  refine ⟨?_, ?_, ?_, ?_⟩
  · intro file fmt hflat hmem
    simp only [List.mem_cons, List.not_mem_nil, or_false] at hmem
    cases file <;> simp [isFlatFile] at hflat <;>
      rcases hmem with rfl | rfl | rfl | rfl <;> exact ⟨_, rfl, rfl⟩
  · intro rows fmt hmem
    simp only [List.mem_cons, List.not_mem_nil, or_false] at hmem
    rcases hmem with rfl | rfl | rfl | rfl | rfl <;> exact ⟨_, _, rfl, rfl⟩
  · intro rows fmt
    rfl
  · intro s fmt hmem
    simp only [List.mem_cons, List.not_mem_nil, or_false] at hmem
    push_neg at hmem
    obtain ⟨h1, h2, h3, h4⟩ := hmem
    simp only [save_translated_file, if_neg h1, if_neg h2, if_neg h3, if_neg h4]

/-- C4 witness. -/
theorem upload_format_matrix_witness :
    ∃ saved, upload_file (fun s => s) (pys ("w")) (ModelFile.pdfF [pys ("Hi")]) "docx" =
      Except.ok (pys ("w") ++ pys ("_translated.") ++ pys ("docx"), saved) ∧
      savedFormat saved = "docx" :=
  (upload_format_matrix (fun s => s) (pys ("w"))).1
    (ModelFile.pdfF [pys ("Hi")]) "docx" rfl (by decide)

/-- C5 counterexample: on "Hello world. This is a test." with maximum
20, neither chunker returns the claimed ["Hello world.",
"This is a test."]. -/
theorem chunk_text_scenario_ne_claimed :
    chunk_text_app (pys ("Hello world. This is a test.")) 20 ≠
      [pys ("Hello world."), pys ("This is a test.")] ∧
    chunk_text_main (pys ("Hello world. This is a test.")) 20 ≠
      [pys ("Hello world."), pys ("This is a test.")] :=
  ⟨by decide, by decide⟩

/-- C5 (amended): on "Hello world. This is a test." with maximum 20 both
chunkers return ["Hello world.", "This is a test.."]: the final
fragment keeps its original period and the loop re-appends ". " to it,
so the second chunk ends in a double period. -/
theorem chunk_text_scenario_actual :
    chunk_text_app (pys ("Hello world. This is a test.")) 20 =
      [pys ("Hello world."), pys ("This is a test..")] ∧
    chunk_text_main (pys ("Hello world. This is a test.")) 20 =
      [pys ("Hello world."), pys ("This is a test..")] :=
  ⟨by decide, by decide⟩

/-- C6 counterexample: with the default maximum 512, both chunkers map
the empty string to the one-chunk sequence ["."], not to the empty
sequence. -/
theorem chunk_text_empty_ne_nil_concrete :
    chunk_text_app (pys ("")) 512 = [pys (".")] ∧
    chunk_text_main (pys ("")) 512 = [pys (".")] ∧
    ([pys (".")] : List (List Char)) ≠ [] :=
  ⟨by decide, by decide, by decide⟩

/-- C6 (amended): for every maximum length the chunker applied to the
empty string returns a non-empty sequence: [""].split(". ") is [""], the
loop turns it into the chunk ". ", and stripping leaves ["."] (with an
additional leading "" chunk when the maximum is so small that the very
first fragment already overflows: at most 2 for src/app.py, 0 for
src/main.py). -/
theorem chunk_text_empty_characterization (m : Nat) :
    chunk_text_app (pys ("")) m = (if 2 < m then [pys (".")] else [[], pys (".")]) ∧
    chunk_text_main (pys ("")) m = (if 0 < m then [pys (".")] else [[], pys (".")]) := by
  constructor
  · show chunkLoopApp m [[]] [] [] = _
    by_cases h : 2 < m
    · rw [if_pos h]
      simp only [chunkLoopApp]
      rw [if_pos (by simp only [List.length_nil]; omega)]
      rfl
    · rw [if_neg h]
      simp only [chunkLoopApp]
      rw [if_neg (by simp only [List.length_nil]; omega)]
      rfl
  · show chunkLoopMain m [[]] [] [] = _
    by_cases h : 0 < m
    · rw [if_pos h]
      simp only [chunkLoopMain]
      rw [if_pos (by simp only [List.length_nil]; omega)]
      rfl
    · rw [if_neg h]
      simp only [chunkLoopMain]
      rw [if_neg (by simp only [List.length_nil]; omega)]
      rfl

/-- C7 counterexample: translate_text on the empty string does call the
backend: the single chunk "." is translated (one call), and the result
is the backend's output, not the unchanged input. -/
theorem translate_text_empty_calls_backend_concrete :
    translate_text_app (fun _ => pys ("X")) (pys ("")) = pys ("X") ∧
    translate_text_main (fun _ => pys ("X")) (pys ("")) = pys ("X") ∧
    pys ("X") ≠ pys ("") ∧
    translate_text_calls_app (pys ("")) = 1 ∧
    translate_text_calls_main (pys ("")) = 1 :=
  ⟨by decide, by decide, by decide, by decide, by decide⟩

/-- C7 (amended): translate_text has no empty-input guard: on every
empty or whitespace-only input (of length at most 509, so a single
chunk forms), both source versions chunk the input into ["."], make
exactly one backend call, and return the backend's output on ".". -/
theorem translate_text_whitespace_one_call (b : List Char → List Char)
    (text : List Char) (hws : ∀ c ∈ text, pyIsSpace c = true)
    (hlen : text.length ≤ 509) :
    translate_text_app b text = b ['.'] ∧
    translate_text_main b text = b ['.'] ∧
    translate_text_calls_app text = 1 ∧
    translate_text_calls_main text = 1 := by
  obtain ⟨ha, hm⟩ := chunk_text_ws text hws hlen
  refine ⟨?_, ?_, ?_, ?_⟩
  · simp only [translate_text_app, ha, List.map_cons, List.map_nil, joinSpace]
    exact intercalate_single [' '] (b ['.'])
  · simp only [translate_text_main, hm, List.map_cons, List.map_nil, joinSpace]
    exact intercalate_single [' '] (b ['.'])
  · rw [translate_text_calls_app, ha]
    rfl
  · rw [translate_text_calls_main, hm]
    rfl

/-- C7 witness. -/
theorem translate_text_whitespace_one_call_witness :
    translate_text_app (fun _ => pys ("Y")) (pys (" ")) = pys ("Y") :=
  (translate_text_whitespace_one_call (fun _ => pys ("Y")) (pys (" "))
    (by decide) (by decide)).1

/-- C8 counterexample: an API request with src_lang = tgt_lang = "en"
is not rejected: the upload route proceeds, hands the backend loader
the model name for the pair en-en, makes one backend call on the lone
chunk and succeeds. -/
theorem upload_same_language_succeeds_concrete :
    upload_file_endpoint (fun _ _ => pys ("X")) (some (pys ("a.txt")))
      (ModelFile.txtF (pys ("Hi"))) "en" "en" "txt" =
      Except.ok (pys ("a_translated.txt"), Saved.txtS (pys ("X"))) ∧
    upload_backend_calls (ModelFile.txtF (pys ("Hi"))) = 1 ∧
    model_name "en" "en" = "Helsinki-NLP/opus-mt-en-en" :=
  ⟨rfl, rfl, rfl⟩

/-- C8 (amended): only the Streamlit front-end compares the two
language selections (its click handler rejects equal names before any
processing); the FastAPI upload route validates nothing but the
filename and, for src_lang = tgt_lang, still proceeds straight to the
translation pipeline with the degenerate model name. -/
theorem same_language_check_ui_only :
    (∀ s t : String, s = t →
      app_translate_click true s t = UiOutcome.errorSameLanguage) ∧
    (∀ (b : String → List Char → List Char) (fn : List Char) (file : ModelFile)
      (src fmt : String), ¬ fn = [] →
      upload_file_endpoint b (some fn) file src src fmt =
        upload_file (b (model_name src src)) (stemOf fn) file fmt) := by
  constructor
  · rintro s t rfl
    simp [app_translate_click]
  · intro b fn file src fmt hfn
    simp only [upload_file_endpoint, if_neg hfn]

/-- C8 witness. -/
theorem same_language_check_ui_only_witness :
    app_translate_click true "English" "English" = UiOutcome.errorSameLanguage ∧
    upload_file_endpoint (fun _ _ => pys ("Z")) (some (pys ("b.txt")))
      (ModelFile.txtF (pys ("Yo"))) "fr" "fr" "txt" =
      upload_file ((fun _ _ => pys ("Z")) (model_name "fr" "fr"))
        (stemOf (pys ("b.txt"))) (ModelFile.txtF (pys ("Yo"))) "txt" :=
  ⟨same_language_check_ui_only.1 "English" "English" rfl,
   same_language_check_ui_only.2 (fun _ _ => pys ("Z")) (pys ("b.txt"))
     (ModelFile.txtF (pys ("Yo"))) "fr" "txt" (by decide)⟩

/-- C9 counterexample: a two-page PDF with no text on any page extracts
to the empty string, the request succeeds (no NoExtractableText failure
exists in the code), and one backend call is made - on the chunk ".". -/
theorem pdf_no_text_still_translates_concrete :
    extract_text (ModelFile.pdfF [[], []]) = Except.ok [] ∧
    upload_file (fun _ => pys ("X")) (pys ("d")) (ModelFile.pdfF [[], []]) "txt" =
      Except.ok (pys ("d_translated.txt"), Saved.txtS (pys ("X"))) ∧
    upload_backend_calls (ModelFile.pdfF [[], []]) = 1 :=
  ⟨rfl, rfl, rfl⟩

/-- C9 (amended): for every PDF whose pages all yield empty text, the
extractor returns the empty string without error, the upload route then
chunks it into ["."], makes exactly one backend call, and the request
succeeds, returning the backend's output on "." as the document body. -/
theorem pdf_all_pages_empty_one_backend_call (b : List Char → List Char)
    (stem : List Char) (pages : List (List Char)) (h : ∀ p ∈ pages, p = []) :
    extract_text (ModelFile.pdfF pages) = Except.ok [] ∧
    upload_file b stem (ModelFile.pdfF pages) "txt" =
      Except.ok (stem ++ pys ("_translated.") ++ pys ("txt"),
        Saved.txtS (b ['.'])) ∧
    upload_backend_calls (ModelFile.pdfF pages) = 1 := by
  have hj : pages.flatten = [] := flatten_all_nil pages h
  have ht : translate_text_main b pages.flatten = b ['.'] := by
    rw [hj]
    simp only [translate_text_main]
    rw [show chunk_text_main [] 512 = [['.']] from rfl]
    simp only [List.map_cons, List.map_nil, joinSpace]
    exact intercalate_single [' '] (b ['.'])
  refine ⟨?_, ?_, ?_⟩
  · simp only [extract_text, hj]
  · simp only [upload_file, extract_text, ht]
    rfl
  · simp only [upload_backend_calls, hj]
    rfl

/-- C9 witness. -/
theorem pdf_all_pages_empty_one_backend_call_witness :
    upload_file (fun _ => pys ("W")) (pys ("e")) (ModelFile.pdfF [[], []]) "txt" =
      Except.ok (pys ("e") ++ pys ("_translated.") ++ pys ("txt"),
        Saved.txtS (pys ("W"))) :=
  (pdf_all_pages_empty_one_backend_call (fun _ => pys ("W")) (pys ("e"))
    [[], []] (by decide)).2.1

/-- C10 counterexample: the two chunkers disagree on "ab. cd" with
maximum 4: src/app.py's overflow test (with the + 2) fires on the first
fragment and emits a leading empty chunk, src/main.py's does not. -/
theorem chunk_text_app_main_differ_concrete :
    chunk_text_app (pys ("ab. cd")) 4 = [[], pys ("ab."), pys ("cd.")] ∧
    chunk_text_main (pys ("ab. cd")) 4 = [pys ("ab."), pys ("cd.")] ∧
    chunk_text_app (pys ("ab. cd")) 4 ≠ chunk_text_main (pys ("ab. cd")) 4 :=
  ⟨by decide, by decide, by decide⟩

/-- C10 (amended): the two chunkers are not extensionally equal at the
same maximum; instead src/app.py's chunk_text at maximum m coincides
with src/main.py's at maximum m - 2 (truncated subtraction), for every
input and every m: the + 2 in app.py's overflow test accounts for the
re-appended ". " two characters. -/
theorem chunk_text_app_shift_two (text : List Char) (m : Nat) :
    chunk_text_app text m = chunk_text_main text (m - 2) :=
  chunk_text_app_eq_main text m

